import Mathlib

/-!
Verification of the SFILS library-patron import program.

The program (two variants, one targeting a document store and one a
relational store) reads spreadsheet rows, cleans each cell, parses the
fields, deduplicates reference data (patron types, libraries,
notification types) and bulk-inserts patron records, then offers a small
interactive query shell.  This file gives a shallow embedding of the
data-cleaning functions, the import loop of the document-store variant
(`importExcel` in the source), the script runner of the relational
variant (`runScripts`), and the result-printing step of both query
shells, and proves properties about them.

Strings are modelled through their character lists so that every
definition reduces in the kernel.  Go's Unicode-aware case folding and
whitespace trimming are modelled on the ASCII range, which covers all
characters the import data and the specification examples use.
-/

namespace SFILS

/-- The whitespace characters cut by Go's `strings.TrimSpace`
(restricted to the ASCII range). -/
def goIsSpace (c : Char) : Bool :=
  c = ' ' || c = '\t' || c = '\n' || c = '\x0b' || c = '\x0c' || c = '\r'

/-- Remove leading whitespace, then trailing whitespace, from a character
list; this is `strings.TrimSpace` on the underlying characters. -/
def trimChars (l : List Char) : List Char :=
  (((l.dropWhile goIsSpace).reverse).dropWhile goIsSpace).reverse

/-- Go `strings.TrimSpace`. -/
def goTrimSpace (s : String) : String :=
  String.mk (trimChars s.data)

/-- ASCII lower-casing of one character, as done by `strings.ToLower`
and by `strings.EqualFold` on ASCII input. -/
def asciiLower (c : Char) : Char :=
  if 'A' ≤ c ∧ c ≤ 'Z' then Char.ofNat (c.toNat + 32) else c

/-- Go `strings.EqualFold` (case-insensitive equality), on ASCII input. -/
def equalFold (a b : String) : Bool :=
  a.data.map asciiLower == b.data.map asciiLower

/-- Go `strings.ToLower`, on ASCII input. -/
def goToLower (s : String) : String :=
  String.mk (s.data.map asciiLower)

/-- Go `strings.ReplaceAll(s, "\n", " ")` on the character list: the
pattern is a single character, so the replacement maps each newline to
one space. -/
def replaceNewline : List Char → List Char
  | [] => []
  | c :: cs => (if c = '\n' then ' ' else c) :: replaceNewline cs

/-- The per-cell cleanup the import loop applies to every cell of an
accepted row: `strings.TrimSpace(strings.ReplaceAll(cell, "\n", " "))`. -/
def cleanCell (s : String) : String :=
  String.mk (trimChars (replaceNewline s.data))

/-- `cleanEmail` from the source: trim, then reject empty strings, the
sentinel tokens "true"/"false" (case-insensitively), and anything
without an `@`; otherwise keep the trimmed value. -/
def cleanEmail (email : String) : Option String :=
  let e := goTrimSpace email
  if e = "" || equalFold e "true" || equalFold e "false" || !(e.data.contains '@')
  then none
  else some e

/-- `stringToPointerOrNull` from the source: trim, and map the empty
string to `none`. -/
def stringToPointerOrNull (value : String) : Option String :=
  let v := goTrimSpace value
  if v = "" then none else some v

/-- The month-name map of `monthToIntOrNull`, in source order. -/
def monthsMap : List (String × Nat) :=
  [("january", 1), ("february", 2), ("march", 3), ("april", 4),
   ("may", 5), ("june", 6), ("july", 7), ("august", 8),
   ("september", 9), ("october", 10), ("november", 11), ("december", 12)]

/-- First-match lookup in an association list (Go map lookup; the keys
of `monthsMap` are distinct so order is irrelevant there). -/
def lookupFirst (k : String) : List (String × Nat) → Option Nat
  | [] => none
  | (k', v) :: rest => if k = k' then some v else lookupFirst k rest

/-- `monthToIntOrNull` from the source.  The second component records
whether the warning line `warning: can't recognize month name` was
printed: the function trims, returns `none` silently for an empty
result, looks the lower-cased value up in the month map, and warns
before returning `none` when the lookup fails. -/
def monthToIntOrNull (monthName : String) : Option Nat × Bool :=
  let m := goTrimSpace monthName
  if m = "" then (none, false)
  else
    match lookupFirst (goToLower m) monthsMap with
    | some n => (some n, false)
    | none => (none, true)

/-! ## Data model of the document-store variant -/

/-- The `Patron` document of the source, with optional fields as
`Option` in place of nullable pointers. -/
structure Patron where
  patronTypeCode : String
  patronTypeDesc : String
  checkoutTotal : String
  renewalTotal : String
  ageRange : String
  homeLibraryCode : String
  homeLibraryName : String
  activeMonth : Option Nat
  activeYear : Option String
  notificationTypeCode : String
  notificationTypeDesc : String
  email : Option String
  withinSFC : Bool
  yearRegistered : Option String
  deriving DecidableEq, Repr

/-- One reference document (`PatronType`, `Library` and
`NotificationType` all have this shape: a code and a description/name). -/
structure RefEntry where
  code : String
  desc : String
  deriving DecidableEq, Repr

/-- The four collections of the `sfils` database. -/
structure Store where
  patrons : List Patron
  patronTypes : List RefEntry
  libraries : List RefEntry
  notificationTypes : List RefEntry
  deriving DecidableEq, Repr

/-- The lines the import prints for abnormal events, used to observe
warnings and per-row/per-batch failures. -/
inductive LogEvent where
  | dropNote (coll : String)
  | skipRow (i : Nat) (cols : Nat)
  | failPatronType (i : Nat)
  | failLibrary (i : Nat)
  | failNotification (i : Nat)
  | monthWarning (name : String)
  | batchFailure (i : Nat) (size : Nat)
  | finalBatchFailure (size : Nat)
  deriving DecidableEq, Repr

/-- The store's responses to the fallible database calls the import
issues: the four collection drops, the three per-row reference upserts
(indexed by the row number) and the bulk inserts (indexed by how many
bulk inserts were issued before). -/
structure DbOracle where
  dropPatronsOk : Bool
  dropPatronTypesOk : Bool
  dropLibrariesOk : Bool
  dropNotificationTypesOk : Bool
  ensurePatronTypeOk : Nat → Bool
  ensureLibraryOk : Nat → Bool
  ensureNotificationTypeOk : Nat → Bool
  insertManyOk : Nat → Bool

/-- The in-flight state of `importExcel`: the database, the buffered
batch (`patronDocs`), the `good`/`bad` counters (Go `int`s, hence
`Int`), the history of bulk-insert calls (each buffered batch together
with whether its `InsertMany` succeeded), and the printed log. -/
structure LoadState where
  store : Store
  buffer : List Patron
  good : Int
  bad : Int
  flushes : List (List Patron × Bool)
  log : List LogEvent
  deriving DecidableEq, Repr

/-- The upsert used for all three reference collections
(`$setOnInsert` with upsert in the document variant, select-then-insert
or `INSERT IGNORE` in the relational variant): insert `(code, desc)`
only when no document with that code exists, never overwrite. -/
def ensureRef (coll : List RefEntry) (code desc : String) : List RefEntry :=
  if coll.any (fun e => e.code == code) then coll else coll ++ [⟨code, desc⟩]

/-- Build the patron document of one (already cleaned) row, exactly as
the loop body does from columns 0–13. -/
def patronOfRow (r : List String) : Patron :=
  { patronTypeCode := r.getD 0 ""
  , patronTypeDesc := r.getD 1 ""
  , checkoutTotal := r.getD 2 ""
  , renewalTotal := r.getD 3 ""
  , ageRange := r.getD 4 ""
  , homeLibraryCode := r.getD 5 ""
  , homeLibraryName := r.getD 6 ""
  , activeMonth := (monthToIntOrNull (r.getD 7 "")).1
  , activeYear := stringToPointerOrNull (r.getD 8 "")
  , notificationTypeCode := r.getD 9 ""
  , notificationTypeDesc := r.getD 10 ""
  , email := cleanEmail (r.getD 11 "")
  , withinSFC := equalFold (r.getD 12 "") "true"
  , yearRegistered := stringToPointerOrNull (r.getD 13 "") }

/-- One `InsertMany` call on the buffered batch: on success the batch is
appended to the collection; on failure the whole batch is counted as
failed (`bad += len`, `good -= len`) and a failure line (`failEv`,
parameterized because the in-loop and final messages differ) is
printed.  The buffer is cleared either way and the call is recorded. -/
def flushBatch (o : DbOracle) (failEv : Nat → LogEvent) (st : LoadState) : LoadState :=
  if o.insertManyOk st.flushes.length then
    { st with
      store := { st.store with patrons := st.store.patrons ++ st.buffer }
      buffer := []
      flushes := st.flushes ++ [(st.buffer, true)] }
  else
    { st with
      bad := st.bad + st.buffer.length
      good := st.good - st.buffer.length
      buffer := []
      flushes := st.flushes ++ [(st.buffer, false)]
      log := st.log ++ [failEv st.buffer.length] }

/-- Count the current row as failed and print the failure line `ev`
(the `bad++; continue` pattern of the loop body). -/
def rejectRow (ev : LogEvent) (st : LoadState) : LoadState :=
  { st with bad := st.bad + 1, log := st.log ++ [ev] }

/-- The successful `ensurePatronType` call on a cleaned row. -/
def upsertPatronType (r : List String) (st : LoadState) : LoadState :=
  { st with store := { st.store with
    patronTypes := ensureRef st.store.patronTypes (r.getD 0 "") (r.getD 1 "") } }

/-- The successful `ensureLibrary` call on a cleaned row. -/
def upsertLibrary (r : List String) (st : LoadState) : LoadState :=
  { st with store := { st.store with
    libraries := ensureRef st.store.libraries (r.getD 5 "") (r.getD 6 "") } }

/-- The successful `ensureNotificationType` call on a cleaned row. -/
def upsertNotificationType (r : List String) (st : LoadState) : LoadState :=
  { st with store := { st.store with
    notificationTypes := ensureRef st.store.notificationTypes (r.getD 9 "") (r.getD 10 "") } }

/-- The month-warning line `monthToIntOrNull` prints on a non-empty
unrecognized month cell. -/
def warnMonth (r : List String) (st : LoadState) : LoadState :=
  if (monthToIntOrNull (r.getD 7 "")).2 then
    { st with log := st.log ++ [.monthWarning (goTrimSpace (r.getD 7 ""))] }
  else st

/-- Append the row's patron document to the batch buffer and count the
row as good. -/
def bufferPatron (r : List String) (st : LoadState) : LoadState :=
  { st with buffer := st.buffer ++ [patronOfRow r], good := st.good + 1 }

/-- The body of the import loop for data row `i` (the header row `i = 0`
never reaches this).  Mirrors the source order: column-count check,
per-cell cleanup, the three reference upserts (each failure counts the
row as bad and moves on), field parsing, buffering, and a bulk insert
once the buffer holds 1000 documents. -/
def stepRow (o : DbOracle) (i : Nat) (st : LoadState) (row : List String) : LoadState :=
  if row.length < 14 then rejectRow (.skipRow i row.length) st
  else
    let r := row.map cleanCell
    if !(o.ensurePatronTypeOk i) then rejectRow (.failPatronType i) st
    else
      let st1 := upsertPatronType r st
      if !(o.ensureLibraryOk i) then rejectRow (.failLibrary i) st1
      else
        let st2 := upsertLibrary r st1
        if !(o.ensureNotificationTypeOk i) then rejectRow (.failNotification i) st2
        else
          let st3 := warnMonth r (upsertNotificationType r st2)
          let st4 := bufferPatron r st3
          if 1000 ≤ st4.buffer.length then flushBatch o (fun n => .batchFailure i n) st4 else st4

/-- The import loop over the data rows, carrying the Go range index. -/
def runRows (o : DbOracle) : Nat → LoadState → List (List String) → LoadState
  | _, st, [] => st
  | i, st, row :: rest => runRows o (i + 1) (stepRow o i st row) rest

/-- The drop phase: each of the four collections is dropped; a failed
drop only prints a `note:` line and leaves the collection as it was —
the import continues regardless. -/
def dropAll (o : DbOracle) (s : Store) : Store × List LogEvent :=
  let (patrons, l1) :=
    if o.dropPatronsOk then (([] : List Patron), ([] : List LogEvent))
    else (s.patrons, [LogEvent.dropNote "patrons"])
  let (patronTypes, l2) :=
    if o.dropPatronTypesOk then (([] : List RefEntry), ([] : List LogEvent))
    else (s.patronTypes, [LogEvent.dropNote "patron_types"])
  let (libraries, l3) :=
    if o.dropLibrariesOk then (([] : List RefEntry), ([] : List LogEvent))
    else (s.libraries, [LogEvent.dropNote "libraries"])
  let (notificationTypes, l4) :=
    if o.dropNotificationTypesOk then (([] : List RefEntry), ([] : List LogEvent))
    else (s.notificationTypes, [LogEvent.dropNote "notification_types"])
  (⟨patrons, patronTypes, libraries, notificationTypes⟩, l1 ++ l2 ++ l3 ++ l4)

/-- What the end-of-import summary reports, together with the final
store, the printed log and the history of bulk inserts. -/
structure ImportSummary where
  store : Store
  totalRows : Int
  good : Int
  bad : Int
  flushes : List (List Patron × Bool)
  log : List LogEvent
  deriving DecidableEq, Repr

/-- `importExcel` of the document-store variant, from the point where
the sheet's rows are in hand: drop the four collections (non-fatally),
run the loop over all rows but the header, flush the remaining buffer if
non-empty, and report `len(rows)-1` total rows with the `good`/`bad`
counters.  `initLoadState` is the state right after the drop phase. -/
def initLoadState (o : DbOracle) (s : Store) : LoadState :=
  { store := (dropAll o s).1, buffer := [], good := 0, bad := 0, flushes := []
  , log := (dropAll o s).2 }

def importExcel (o : DbOracle) (rows : List (List String)) (s : Store) : ImportSummary :=
  let st := runRows o 1 (initLoadState o s) (rows.drop 1)
  let stF :=
    if 0 < st.buffer.length then flushBatch o (fun n => .finalBatchFailure n) st else st
  { store := stF.store
  , totalRows := (rows.length : Int) - 1
  , good := stF.good
  , bad := stF.bad
  , flushes := stF.flushes
  , log := stF.log }

/-! ## The relational variant's schema-reset script runner -/

/-- Split a character list at every occurrence of the separator
(`strings.Split`). -/
def splitChar (sep : Char) : List Char → List (List Char)
  | [] => [[]]
  | c :: cs =>
    let r := splitChar sep cs
    if c = sep then [] :: r
    else
      match r with
      | [] => [[c]]
      | h :: t => (c :: h) :: t

/-- Cut a line at the first `--` (SQL comment removal in `runScripts`). -/
def dropLineComment : List Char → List Char
  | [] => []
  | '-' :: '-' :: _ => []
  | c :: cs => c :: dropLineComment cs

/-- Join line fragments with single spaces (`strings.Join(lines, " ")`). -/
def joinWithSpace : List (List Char) → List Char
  | [] => []
  | [l] => l
  | l :: rest => l ++ ' ' :: joinWithSpace rest

/-- The per-statement cleanup of `runScripts`: split the statement into
lines, cut each line at `--`, trim it, drop empty lines, join the rest
with spaces, and trim the result. -/
def cleanStatement (stmt : List Char) : String :=
  let lines := (splitChar '\n' stmt).map (fun l => trimChars (dropLineComment l))
  let kept := lines.filter (fun l => !l.isEmpty)
  String.mk (trimChars (joinWithSpace kept))

/-- Execute the cleaned statements of one script in order, skipping
empty ones; the first statement the store rejects aborts the whole run
with an error (which `main` treats as fatal). -/
def execStatements (exec : String → Bool) : List String → Except String Unit
  | [] => .ok ()
  | stmt :: rest =>
    if stmt = "" then execStatements exec rest
    else if exec stmt then execStatements exec rest
    else .error stmt

/-- `runScripts` on the content of one `.sql` file: split on `;`, clean
each statement, execute in order, abort on the first failure. -/
def runScriptFile (exec : String → Bool) (content : String) : Except String Unit :=
  execStatements exec ((splitChar ';' content.data).map cleanStatement)

/-! ## The query shells' result printing -/

/-- The document-store shell's query execution: `Find` is called with
`SetLimit(100)`, so the cursor yields at most 100 matching documents;
the loop prints each and counts the printed documents for the trailing
`%d documents returned` line. -/
def mongoShellQuery {α : Type} (coll : List α) (pred : α → Bool) : List α × Nat :=
  let rs := (coll.filter pred).take 100
  (rs, rs.length)

/-- The relational shell's query printing: `db.Query` has no limit, the
loop prints every row of the result set and counts them for the
trailing `%d rows returned` line. -/
def sqlShellQuery {α : Type} (resultRows : List α) : List α × Nat :=
  (resultRows, resultRows.length)

/-! ## Formalizations of the specification's wording

These definitions follow the words of the specification sentences under
test, to be compared with the definitions translated from the source. -/

/-- `parseEmail` as the specification states it: absent when the
trimmed input is empty, case-insensitively equals "true" or "false", or
contains no `@` character; otherwise present with the trimmed value. -/
def parseEmailClaim (s : String) : Option String :=
  let t := goTrimSpace s
  if t.data = [] ∨ equalFold t "true" = true ∨ equalFold t "false" = true ∨ ¬ '@' ∈ t.data
  then none
  else some t

/-- `parseMonth` as the specification states it: a case-insensitive
match against the twelve canonical month names gives 1..12, the empty
input gives absent without a warning, and non-empty unrecognized input
gives absent with a warning.  (No trimming: the sentence does not
mention any.) -/
def parseMonthClaim (s : String) : Option Nat × Bool :=
  if s = "" then (none, false)
  else
    match lookupFirst (goToLower s) monthsMap with
    | some n => (some n, false)
    | none => (none, true)

/-- Collapse each run of newlines to a single space (the helper for the
per-cell transform as the specification states it); the flag records
whether the previous character was a newline. -/
def collapseNLAux : Bool → List Char → List Char
  | _, [] => []
  | prevNL, c :: cs =>
    if c = '\n' then
      if prevNL then collapseNLAux true cs else ' ' :: collapseNLAux true cs
    else c :: collapseNLAux false cs

/-- The per-cell transform as the specification states it: strip
leading/trailing whitespace and collapse every run of embedded newlines
to a single space. -/
def trimCellClaim (s : String) : String :=
  String.mk (trimChars (collapseNLAux false s.data))

/-! ## Derived views of the import used in the statements -/

/-- The data rows (header dropped) that pass the column-count check. -/
def validRows (rows : List (List String)) : List (List String) :=
  (rows.drop 1).filter (fun r => !(r.length < 14))

/-- The (code, description) cell pair a given pair of columns
contributes, after cell cleanup, one pair per accepted row. -/
def refPairs (ci di : Nat) (rows : List (List String)) : List (String × String) :=
  (validRows rows).map (fun r => ((r.map cleanCell).getD ci "", (r.map cleanCell).getD di ""))

/-- Replay insert-if-absent over a list of (code, description) pairs. -/
def refFold (init : List RefEntry) (pairs : List (String × String)) : List RefEntry :=
  pairs.foldl (fun acc p => ensureRef acc p.1 p.2) init

/-- The description carried by the first pair with the given code. -/
def firstDesc (c : String) : List (String × String) → Option String
  | [] => none
  | p :: rest => if p.1 = c then some p.2 else firstDesc c rest

/-- The number of records carried by the successful bulk inserts of a
flush history. -/
def flushedCount (fs : List (List Patron × Bool)) : Nat :=
  ((fs.filter (fun f => f.2)).map (fun f => f.1.length)).sum

/-- The number of records acknowledged by successful bulk inserts. -/
def flushedGood (st : LoadState) : Nat :=
  flushedCount st.flushes

/-- Each recorded bulk insert's outcome is the store's answer for the
call of that index. -/
def FlushesOk (o : DbOracle) (st : LoadState) : Prop :=
  ∀ (j : Nat) (f : List Patron × Bool), st.flushes[j]? = some f → f.2 = o.insertManyOk j

/-- The patrons collection holds the pre-existing documents followed by
all successfully inserted batches, in order. -/
def StoreFromFlushes (base : List Patron) (st : LoadState) : Prop :=
  st.store.patrons = base ++ ((st.flushes.filter (fun f => f.2)).map (fun f => f.1)).flatten

/-! ## Concrete inputs used by the witnesses and counterexamples -/

/-- A store on which every database call succeeds. -/
def okOracle : DbOracle :=
  ⟨true, true, true, true, fun _ => true, fun _ => true, fun _ => true, fun _ => true⟩

def emptyStore : Store := ⟨[], [], [], []⟩

def headerRow : List String := List.replicate 14 "h"

def rowAdult1 : List String :=
  ["ADULT", "Adult", "5", "2", "25 to 34 years", "MN", "Main", "January",
   "2023", "EM", "Email", " a@b.com ", "true", "2020"]

def rowAdult2 : List String :=
  ["ADULT", "Adult Patron", "1", "0", "25 to 34 years", "MN", "Main", "",
   "2023", "EM", "Email", "false", "TRUE", "2021"]

def rowShort : List String := List.replicate 10 "x"

def demoRows : List (List String) := [headerRow, rowAdult1, rowAdult2, rowShort]

/-- The patron document the import builds from `rowAdult1`. -/
def patronA : Patron := patronOfRow (rowAdult1.map cleanCell)

/-- A load state with no documents and an empty log. -/
def blankState : LoadState := ⟨emptyStore, [], 0, 0, [], []⟩

/-- A store whose patron drop fails (for a reason other than absence:
the collection exists and is non-empty). -/
def dropFailOracle : DbOracle := { okOracle with dropPatronsOk := false }

/-- A pre-existing store holding one stale patron document. -/
def staleStore : Store := ⟨[patronA], [], [], []⟩

/-- A store that accepts the first bulk insert and rejects the second. -/
def c4Oracle : DbOracle := { okOracle with insertManyOk := fun n => n == 0 }

/-- A mid-import state about to issue its second bulk insert. -/
def c4State : LoadState := ⟨emptyStore, [patronA], 1, 0, [([patronA], true)], []⟩

/-- The drop portion of the relational variant's schema script. -/
def dropScript : String :=
  "-- dropping tables for reliability\nDROP TABLE IF EXISTS patrons;\nDROP TABLE IF EXISTS patron_types;\nDROP TABLE IF EXISTS libraries;\nDROP TABLE IF EXISTS notification_types;\n"

/-! ## Helper lemmas -/

theorem trimChars_eq_rdrop (l : List Char) :
    trimChars l = List.rdropWhile goIsSpace (List.dropWhile goIsSpace l) := rfl

theorem mem_of_mem_trimChars {x : Char} {l : List Char} (h : x ∈ trimChars l) : x ∈ l := by
  rw [trimChars_eq_rdrop] at h
  have h1 : x ∈ List.dropWhile goIsSpace l :=
    ((List.rdropWhile_prefix _ _).sublist).mem h
  exact ((List.dropWhile_suffix _).sublist).mem h1

theorem trimChars_idem (l : List Char) : trimChars (trimChars l) = trimChars l := by
  rw [trimChars_eq_rdrop, trimChars_eq_rdrop]
  have h1 : List.dropWhile goIsSpace (List.rdropWhile goIsSpace (List.dropWhile goIsSpace l))
      = List.rdropWhile goIsSpace (List.dropWhile goIsSpace l) := by
    obtain ⟨t, ht⟩ := List.rdropWhile_prefix goIsSpace (List.dropWhile goIsSpace l)
    cases hr : List.rdropWhile goIsSpace (List.dropWhile goIsSpace l) with
    | nil => rfl
    | cons a r' =>
      rw [hr] at ht
      have hd : List.dropWhile goIsSpace l = a :: (r' ++ t) := by
        rw [← ht]
        simp
      have hhead := List.head?_dropWhile_not goIsSpace l
      rw [hd] at hhead
      simp only [List.head?_cons] at hhead
      exact List.dropWhile_cons_of_neg (by simp [hhead])
  rw [h1, List.rdropWhile_idempotent]

theorem replaceNewline_eq_map (l : List Char) :
    replaceNewline l = l.map (fun c => if c = '\n' then ' ' else c) := by
  induction l with
  | nil => rfl
  | cons c cs ih => simp [replaceNewline, ih]

theorem newline_not_mem_replaceNewline (l : List Char) : '\n' ∉ replaceNewline l := by
  induction l with
  | nil => simp [replaceNewline]
  | cons c cs ih =>
    simp only [replaceNewline, List.mem_cons, not_or]
    refine ⟨?_, ih⟩
    split
    · decide
    · rename_i hc
      exact fun h => hc h.symm

theorem replaceNewline_of_not_mem {l : List Char} (h : '\n' ∉ l) : replaceNewline l = l := by
  induction l with
  | nil => rfl
  | cons c cs ih =>
    simp only [List.mem_cons, not_or] at h
    simp only [replaceNewline, ih h.2]
    rw [if_neg (fun hc => h.1 hc.symm)]

theorem newline_not_mem_cleanCell (s : String) : '\n' ∉ (cleanCell s).data := by
  intro h
  exact newline_not_mem_replaceNewline _ (mem_of_mem_trimChars h)

theorem cleanCell_idem (s : String) : cleanCell (cleanCell s) = cleanCell s := by
  have h : replaceNewline (trimChars (replaceNewline s.data))
      = trimChars (replaceNewline s.data) :=
    replaceNewline_of_not_mem (newline_not_mem_cleanCell s)
  show String.mk (trimChars (replaceNewline (trimChars (replaceNewline s.data))))
      = String.mk (trimChars (replaceNewline s.data))
  rw [h, trimChars_idem]

@[simp] theorem rejectRow_store (ev : LogEvent) (st : LoadState) :
    (rejectRow ev st).store = st.store := rfl

@[simp] theorem rejectRow_buffer (ev : LogEvent) (st : LoadState) :
    (rejectRow ev st).buffer = st.buffer := rfl

@[simp] theorem rejectRow_good (ev : LogEvent) (st : LoadState) :
    (rejectRow ev st).good = st.good := rfl

@[simp] theorem rejectRow_bad (ev : LogEvent) (st : LoadState) :
    (rejectRow ev st).bad = st.bad + 1 := rfl

@[simp] theorem rejectRow_flushes (ev : LogEvent) (st : LoadState) :
    (rejectRow ev st).flushes = st.flushes := rfl

@[simp] theorem rejectRow_log (ev : LogEvent) (st : LoadState) :
    (rejectRow ev st).log = st.log ++ [ev] := rfl

@[simp] theorem upsertPatronType_store_patronTypes (r : List String) (st : LoadState) :
    (upsertPatronType r st).store.patronTypes
      = ensureRef st.store.patronTypes (r.getD 0 "") (r.getD 1 "") := rfl

@[simp] theorem upsertPatronType_store_patrons (r : List String) (st : LoadState) :
    (upsertPatronType r st).store.patrons = st.store.patrons := rfl

@[simp] theorem upsertPatronType_store_libraries (r : List String) (st : LoadState) :
    (upsertPatronType r st).store.libraries = st.store.libraries := rfl

@[simp] theorem upsertPatronType_store_notificationTypes (r : List String) (st : LoadState) :
    (upsertPatronType r st).store.notificationTypes = st.store.notificationTypes := rfl

@[simp] theorem upsertPatronType_buffer (r : List String) (st : LoadState) :
    (upsertPatronType r st).buffer = st.buffer := rfl

@[simp] theorem upsertPatronType_good (r : List String) (st : LoadState) :
    (upsertPatronType r st).good = st.good := rfl

@[simp] theorem upsertPatronType_bad (r : List String) (st : LoadState) :
    (upsertPatronType r st).bad = st.bad := rfl

@[simp] theorem upsertPatronType_flushes (r : List String) (st : LoadState) :
    (upsertPatronType r st).flushes = st.flushes := rfl

@[simp] theorem upsertPatronType_log (r : List String) (st : LoadState) :
    (upsertPatronType r st).log = st.log := rfl

@[simp] theorem upsertLibrary_store_patronTypes (r : List String) (st : LoadState) :
    (upsertLibrary r st).store.patronTypes = st.store.patronTypes := rfl

@[simp] theorem upsertLibrary_store_patrons (r : List String) (st : LoadState) :
    (upsertLibrary r st).store.patrons = st.store.patrons := rfl

@[simp] theorem upsertLibrary_store_libraries (r : List String) (st : LoadState) :
    (upsertLibrary r st).store.libraries
      = ensureRef st.store.libraries (r.getD 5 "") (r.getD 6 "") := rfl

@[simp] theorem upsertLibrary_store_notificationTypes (r : List String) (st : LoadState) :
    (upsertLibrary r st).store.notificationTypes = st.store.notificationTypes := rfl

@[simp] theorem upsertLibrary_buffer (r : List String) (st : LoadState) :
    (upsertLibrary r st).buffer = st.buffer := rfl

@[simp] theorem upsertLibrary_good (r : List String) (st : LoadState) :
    (upsertLibrary r st).good = st.good := rfl

@[simp] theorem upsertLibrary_bad (r : List String) (st : LoadState) :
    (upsertLibrary r st).bad = st.bad := rfl

@[simp] theorem upsertLibrary_flushes (r : List String) (st : LoadState) :
    (upsertLibrary r st).flushes = st.flushes := rfl

@[simp] theorem upsertLibrary_log (r : List String) (st : LoadState) :
    (upsertLibrary r st).log = st.log := rfl

@[simp] theorem upsertNotificationType_store_patronTypes (r : List String) (st : LoadState) :
    (upsertNotificationType r st).store.patronTypes = st.store.patronTypes := rfl

@[simp] theorem upsertNotificationType_store_patrons (r : List String) (st : LoadState) :
    (upsertNotificationType r st).store.patrons = st.store.patrons := rfl

@[simp] theorem upsertNotificationType_store_libraries (r : List String) (st : LoadState) :
    (upsertNotificationType r st).store.libraries = st.store.libraries := rfl

@[simp] theorem upsertNotificationType_store_notificationTypes
    (r : List String) (st : LoadState) :
    (upsertNotificationType r st).store.notificationTypes
      = ensureRef st.store.notificationTypes (r.getD 9 "") (r.getD 10 "") := rfl

@[simp] theorem upsertNotificationType_buffer (r : List String) (st : LoadState) :
    (upsertNotificationType r st).buffer = st.buffer := rfl

@[simp] theorem upsertNotificationType_good (r : List String) (st : LoadState) :
    (upsertNotificationType r st).good = st.good := rfl

@[simp] theorem upsertNotificationType_bad (r : List String) (st : LoadState) :
    (upsertNotificationType r st).bad = st.bad := rfl

@[simp] theorem upsertNotificationType_flushes (r : List String) (st : LoadState) :
    (upsertNotificationType r st).flushes = st.flushes := rfl

@[simp] theorem upsertNotificationType_log (r : List String) (st : LoadState) :
    (upsertNotificationType r st).log = st.log := rfl

@[simp] theorem warnMonth_store (r : List String) (st : LoadState) :
    (warnMonth r st).store = st.store := by
  unfold warnMonth
  split <;> rfl

@[simp] theorem warnMonth_buffer (r : List String) (st : LoadState) :
    (warnMonth r st).buffer = st.buffer := by
  unfold warnMonth
  split <;> rfl

@[simp] theorem warnMonth_good (r : List String) (st : LoadState) :
    (warnMonth r st).good = st.good := by
  unfold warnMonth
  split <;> rfl

@[simp] theorem warnMonth_bad (r : List String) (st : LoadState) :
    (warnMonth r st).bad = st.bad := by
  unfold warnMonth
  split <;> rfl

@[simp] theorem warnMonth_flushes (r : List String) (st : LoadState) :
    (warnMonth r st).flushes = st.flushes := by
  unfold warnMonth
  split <;> rfl

@[simp] theorem bufferPatron_store (r : List String) (st : LoadState) :
    (bufferPatron r st).store = st.store := rfl

@[simp] theorem bufferPatron_buffer (r : List String) (st : LoadState) :
    (bufferPatron r st).buffer = st.buffer ++ [patronOfRow r] := rfl

@[simp] theorem bufferPatron_good (r : List String) (st : LoadState) :
    (bufferPatron r st).good = st.good + 1 := rfl

@[simp] theorem bufferPatron_bad (r : List String) (st : LoadState) :
    (bufferPatron r st).bad = st.bad := rfl

@[simp] theorem bufferPatron_flushes (r : List String) (st : LoadState) :
    (bufferPatron r st).flushes = st.flushes := rfl

@[simp] theorem bufferPatron_log (r : List String) (st : LoadState) :
    (bufferPatron r st).log = st.log := rfl

@[simp] theorem flushBatch_store_patronTypes (o : DbOracle) (ev : Nat → LogEvent)
    (st : LoadState) : (flushBatch o ev st).store.patronTypes = st.store.patronTypes := by
  unfold flushBatch
  split <;> rfl

@[simp] theorem flushBatch_store_libraries (o : DbOracle) (ev : Nat → LogEvent)
    (st : LoadState) : (flushBatch o ev st).store.libraries = st.store.libraries := by
  unfold flushBatch
  split <;> rfl

@[simp] theorem flushBatch_store_notificationTypes (o : DbOracle) (ev : Nat → LogEvent)
    (st : LoadState) :
    (flushBatch o ev st).store.notificationTypes = st.store.notificationTypes := by
  unfold flushBatch
  split <;> rfl

@[simp] theorem flushBatch_buffer (o : DbOracle) (ev : Nat → LogEvent) (st : LoadState) :
    (flushBatch o ev st).buffer = [] := by
  unfold flushBatch
  split <;> rfl

theorem flushBatch_good_add_bad (o : DbOracle) (ev : Nat → LogEvent) (st : LoadState) :
    (flushBatch o ev st).good + (flushBatch o ev st).bad = st.good + st.bad := by
  unfold flushBatch
  split
  · rfl
  · show st.good - st.buffer.length + (st.bad + st.buffer.length) = st.good + st.bad
    ring

theorem flushBatch_of_ok {o : DbOracle} (ev : Nat → LogEvent) (st : LoadState)
    (h : o.insertManyOk st.flushes.length = true) :
    flushBatch o ev st =
      { st with
        store := { st.store with patrons := st.store.patrons ++ st.buffer }
        buffer := []
        flushes := st.flushes ++ [(st.buffer, true)] } := by
  unfold flushBatch
  rw [if_pos h]

theorem flushBatch_of_fail {o : DbOracle} (ev : Nat → LogEvent) (st : LoadState)
    (h : o.insertManyOk st.flushes.length = false) :
    flushBatch o ev st =
      { st with
        bad := st.bad + st.buffer.length
        good := st.good - st.buffer.length
        buffer := []
        flushes := st.flushes ++ [(st.buffer, false)]
        log := st.log ++ [ev st.buffer.length] } := by
  unfold flushBatch
  rw [h]
  simp

theorem stepRow_map_cleanCell (o : DbOracle) (i : Nat) (st : LoadState)
    (row : List String) :
    stepRow o i st (row.map cleanCell) = stepRow o i st row := by
  unfold stepRow
  rw [List.length_map, List.map_map]
  rw [show cleanCell ∘ cleanCell = cleanCell from funext cleanCell_idem]

theorem contains_char_iff (l : List Char) (c : Char) : l.contains c = true ↔ c ∈ l := by
  rw [show l.contains c = List.elem c l from rfl]
  exact List.elem_iff

theorem lookupFirst_mem {k : String} {v : Nat} :
    ∀ {l : List (String × Nat)}, lookupFirst k l = some v → v ∈ l.map Prod.snd := by
  intro l
  induction l with
  | nil => intro h; simp [lookupFirst] at h
  | cons p rest ih =>
    intro h
    simp only [lookupFirst] at h
    split at h
    · simp only [Option.some.injEq] at h
      simp [← h]
    · simpa using Or.inr (ih h)

/-! ## Claims -/

/-- C1.  `cleanEmail` returns `none` exactly when the trimmed input is
empty, case-insensitively equal to "true" or "false", or contains no
`@`, and otherwise returns the trimmed value; in particular on the five
specification examples. -/
theorem c1_parse_email :
    (∀ s, cleanEmail s = parseEmailClaim s) ∧
    cleanEmail "True" = none ∧ cleanEmail "FALSE" = none ∧ cleanEmail "" = none ∧
    cleanEmail "not-an-email" = none ∧ cleanEmail " a@b.com " = some "a@b.com" := by
  refine ⟨fun s => ?_, by decide, by decide, by decide, by decide, by decide⟩
  have hc : (decide (goTrimSpace s = "") || equalFold (goTrimSpace s) "true"
        || equalFold (goTrimSpace s) "false" || !((goTrimSpace s).data.contains '@')) = true
      ↔ ((goTrimSpace s).data = [] ∨ equalFold (goTrimSpace s) "true" = true
        ∨ equalFold (goTrimSpace s) "false" = true ∨ ¬ '@' ∈ (goTrimSpace s).data) := by
    have hempty : (goTrimSpace s = "") ↔ (goTrimSpace s).data = [] := by
      rw [String.ext_iff]
    simp only [Bool.or_eq_true, decide_eq_true_eq, Bool.not_eq_true',
      ← Bool.not_eq_true, contains_char_iff, hempty]
    tauto
  simp only [cleanEmail, parseEmailClaim]
  by_cases h : (goTrimSpace s).data = [] ∨ equalFold (goTrimSpace s) "true" = true
      ∨ equalFold (goTrimSpace s) "false" = true ∨ ¬ '@' ∈ (goTrimSpace s).data
  · rw [if_pos (hc.mpr h), if_pos h]
  · rw [if_neg (fun hb => h (hc.mp hb)), if_neg h]

/-- C6 counterexample.  The claim says every non-empty input that does
not case-insensitively match a month name yields absent *with a
warning*; the whitespace-only input `"   "` is non-empty and matches no
month name, yet the code trims it to the empty string and returns
silently. -/
theorem c6_parse_month_counterexample :
    monthToIntOrNull "   " = (none, false) ∧ parseMonthClaim "   " = (none, true) ∧
    monthToIntOrNull "   " ≠ parseMonthClaim "   " := by decide

/-- C6 amended.  `monthToIntOrNull` first trims its input and then
behaves as the claim says on the trimmed value: a case-insensitive
month-name match yields its number (always in 1..12) without warning,
an empty trimmed value yields absent silently, and any other value
yields absent with a warning; the four specification examples hold. -/
theorem c6_parse_month_amended :
    (∀ s, monthToIntOrNull s = parseMonthClaim (goTrimSpace s)) ∧
    (∀ s n, (monthToIntOrNull s).1 = some n → 1 ≤ n ∧ n ≤ 12) ∧
    monthToIntOrNull "January" = (some 1, false) ∧
    monthToIntOrNull "december" = (some 12, false) ∧
    monthToIntOrNull "" = (none, false) ∧
    monthToIntOrNull "Smarch" = (none, true) := by
  refine ⟨fun s => rfl, fun s n h => ?_, by decide, by decide, by decide, by decide⟩
  unfold monthToIntOrNull at h
  by_cases hm : goTrimSpace s = ""
  · simp [hm] at h
  · simp only [if_neg hm] at h
    cases hl : lookupFirst (goToLower (goTrimSpace s)) monthsMap with
    | none => rw [hl] at h; simp at h
    | some v =>
      rw [hl] at h
      simp only [Option.some.injEq] at h
      subst h
      have hv := lookupFirst_mem hl
      simp only [monthsMap, List.map_cons, List.map_nil, List.mem_cons,
        List.not_mem_nil, or_false] at hv
      rcases hv with h | h | h | h | h | h | h | h | h | h | h | h <;> omega

/-- Witness for C6's amended statement at concrete inputs. -/
theorem c6_parse_month_amended_witness :
    monthToIntOrNull " October " = parseMonthClaim (goTrimSpace " October ") ∧
    (monthToIntOrNull " October ").1 = some 10 ∧ 1 ≤ 10 ∧ 10 ≤ 12 := by
  have H := c6_parse_month_amended
  have h10 : (monthToIntOrNull " October ").1 = some 10 := by decide
  exact ⟨H.1 " October ", h10, H.2.1 " October " 10 h10⟩

/-- C7 counterexample.  The claim says runs of embedded newlines
collapse to a single space; the code replaces each newline with one
space, so `"a\n\nb"` becomes `"a  b"` (two spaces), not `"a b"`. -/
theorem c7_trim_row_counterexample :
    cleanCell "a\n\nb" = "a  b" ∧ trimCellClaim "a\n\nb" = "a b" ∧
    cleanCell "a\n\nb" ≠ trimCellClaim "a\n\nb" := by decide

/-- C7 amended.  The per-cell cleanup replaces each embedded newline
with a single space (a run of k newlines becomes k spaces) and strips
leading/trailing whitespace; and running the import step on a
pre-cleaned row equals running it on the raw row, i.e. every field
parser only ever sees cleaned cells. -/
theorem c7_trim_row_amended :
    (∀ s, cleanCell s
        = String.mk (trimChars (s.data.map (fun c => if c = '\n' then ' ' else c)))) ∧
    (∀ (o : DbOracle) (i : Nat) (st : LoadState) (row : List String),
        stepRow o i st (row.map cleanCell) = stepRow o i st row) := by
  constructor
  · intro s
    show String.mk (trimChars (replaceNewline s.data)) = _
    rw [replaceNewline_eq_map]
  · exact stepRow_map_cleanCell

/-- C3.  A row with fewer than 14 cells is rejected: the failure
counter is incremented, the log records the skip, and nothing else
changes — no patron is buffered or inserted and no reference collection
is touched. -/
theorem c3_insufficient_columns (o : DbOracle) (i : Nat) (st : LoadState)
    (row : List String) (h : row.length < 14) :
    (stepRow o i st row).bad = st.bad + 1 ∧
    (stepRow o i st row).good = st.good ∧
    (stepRow o i st row).store = st.store ∧
    (stepRow o i st row).buffer = st.buffer ∧
    (stepRow o i st row).flushes = st.flushes ∧
    (stepRow o i st row).log = st.log ++ [.skipRow i row.length] := by
  simp [stepRow, h]

/-- Witness for C3 at a concrete 10-cell row. -/
theorem c3_insufficient_columns_witness :
    rowShort.length < 14 ∧
    ((stepRow okOracle 1 blankState rowShort).bad = blankState.bad + 1 ∧
     (stepRow okOracle 1 blankState rowShort).good = blankState.good ∧
     (stepRow okOracle 1 blankState rowShort).store = blankState.store ∧
     (stepRow okOracle 1 blankState rowShort).buffer = blankState.buffer ∧
     (stepRow okOracle 1 blankState rowShort).flushes = blankState.flushes ∧
     (stepRow okOracle 1 blankState rowShort).log
        = blankState.log ++ [.skipRow 1 rowShort.length]) :=
  ⟨by decide, c3_insufficient_columns okOracle 1 blankState rowShort (by decide)⟩

/-- C9 counterexample.  The claim bounds every shell's output at 100
rows; the relational shell runs the query without a limit and prints
every result row, so a 101-row result prints 101 rows. -/
theorem c9_shell_limit_counterexample :
    (sqlShellQuery (List.replicate 101 (0 : Nat))).1.length = 101 ∧
    ¬ (sqlShellQuery (List.replicate 101 (0 : Nat))).1.length ≤ 100 ∧
    (sqlShellQuery (List.replicate 101 (0 : Nat))).2 = 101 := by decide

/-- C9 amended.  The document-store shell prints at most 100 documents
(the `Find` limit) with a trailing count of the printed documents; the
relational shell prints every row of the result set with a trailing
count of the printed rows. -/
theorem c9_shell_limit_amended :
    (∀ (α : Type) (coll : List α) (pred : α → Bool),
        (mongoShellQuery coll pred).1.length ≤ 100 ∧
        (mongoShellQuery coll pred).2 = (mongoShellQuery coll pred).1.length) ∧
    (∀ (α : Type) (resultRows : List α),
        (sqlShellQuery resultRows).1 = resultRows ∧
        (sqlShellQuery resultRows).2 = resultRows.length) := by
  refine ⟨fun α coll pred => ⟨?_, rfl⟩, fun α resultRows => ⟨rfl, rfl⟩⟩
  show ((coll.filter pred).take 100).length ≤ 100
  rw [List.length_take]
  exact Nat.min_le_left _ _

theorem dropAll_of_ok {o : DbOracle} (h1 : o.dropPatronsOk = true)
    (h2 : o.dropPatronTypesOk = true) (h3 : o.dropLibrariesOk = true)
    (h4 : o.dropNotificationTypesOk = true) (s : Store) :
    dropAll o s = (⟨[], [], [], []⟩, []) := by
  unfold dropAll
  rw [h1, h2, h3, h4]
  simp

/-- C5.  When the four drops succeed, the whole import ignores the
prior store contents, so running the import twice over the same input
and store gives the same summary (store contents and counts) as running
it once. -/
theorem c5_reload_idempotent (o : DbOracle) (rows : List (List String)) (s : Store)
    (h1 : o.dropPatronsOk = true) (h2 : o.dropPatronTypesOk = true)
    (h3 : o.dropLibrariesOk = true) (h4 : o.dropNotificationTypesOk = true) :
    importExcel o rows ((importExcel o rows s).store) = importExcel o rows s := by
  unfold importExcel initLoadState
  rw [dropAll_of_ok h1 h2 h3 h4, dropAll_of_ok h1 h2 h3 h4]

/-- Witness for C5 on a concrete input with a non-empty prior store. -/
theorem c5_reload_idempotent_witness :
    importExcel okOracle demoRows ((importExcel okOracle demoRows staleStore).store)
      = importExcel okOracle demoRows staleStore :=
  c5_reload_idempotent okOracle demoRows staleStore rfl rfl rfl rfl

theorem flushBatch_sim {o o' : DbOracle} (hins : o.insertManyOk = o'.insertManyOk)
    {st st' : LoadState} (hb : st.buffer = st'.buffer) (hg : st.good = st'.good)
    (hbad : st.bad = st'.bad) (hf : st.flushes = st'.flushes)
    (ev ev' : Nat → LogEvent) :
    (flushBatch o ev st).buffer = (flushBatch o' ev' st').buffer ∧
    (flushBatch o ev st).good = (flushBatch o' ev' st').good ∧
    (flushBatch o ev st).bad = (flushBatch o' ev' st').bad ∧
    (flushBatch o ev st).flushes = (flushBatch o' ev' st').flushes := by
  unfold flushBatch
  rw [hins, hb, hg, hbad, hf]
  split <;> exact ⟨rfl, rfl, rfl, rfl⟩

theorem stepRow_sim {o o' : DbOracle}
    (he1 : o.ensurePatronTypeOk = o'.ensurePatronTypeOk)
    (he2 : o.ensureLibraryOk = o'.ensureLibraryOk)
    (he3 : o.ensureNotificationTypeOk = o'.ensureNotificationTypeOk)
    (hins : o.insertManyOk = o'.insertManyOk)
    {st st' : LoadState} (hb : st.buffer = st'.buffer) (hg : st.good = st'.good)
    (hbad : st.bad = st'.bad) (hf : st.flushes = st'.flushes)
    (i : Nat) (row : List String) :
    (stepRow o i st row).buffer = (stepRow o' i st' row).buffer ∧
    (stepRow o i st row).good = (stepRow o' i st' row).good ∧
    (stepRow o i st row).bad = (stepRow o' i st' row).bad ∧
    (stepRow o i st row).flushes = (stepRow o' i st' row).flushes := by
  have cbuf : (bufferPatron (row.map cleanCell) (warnMonth (row.map cleanCell)
      (upsertNotificationType (row.map cleanCell) (upsertLibrary (row.map cleanCell)
      (upsertPatronType (row.map cleanCell) st))))).buffer
      = (bufferPatron (row.map cleanCell) (warnMonth (row.map cleanCell)
      (upsertNotificationType (row.map cleanCell) (upsertLibrary (row.map cleanCell)
      (upsertPatronType (row.map cleanCell) st'))))).buffer := by simp [hb]
  have cgood : (bufferPatron (row.map cleanCell) (warnMonth (row.map cleanCell)
      (upsertNotificationType (row.map cleanCell) (upsertLibrary (row.map cleanCell)
      (upsertPatronType (row.map cleanCell) st))))).good
      = (bufferPatron (row.map cleanCell) (warnMonth (row.map cleanCell)
      (upsertNotificationType (row.map cleanCell) (upsertLibrary (row.map cleanCell)
      (upsertPatronType (row.map cleanCell) st'))))).good := by simp [hg]
  have cbad : (bufferPatron (row.map cleanCell) (warnMonth (row.map cleanCell)
      (upsertNotificationType (row.map cleanCell) (upsertLibrary (row.map cleanCell)
      (upsertPatronType (row.map cleanCell) st))))).bad
      = (bufferPatron (row.map cleanCell) (warnMonth (row.map cleanCell)
      (upsertNotificationType (row.map cleanCell) (upsertLibrary (row.map cleanCell)
      (upsertPatronType (row.map cleanCell) st'))))).bad := by simp [hbad]
  have cflush : (bufferPatron (row.map cleanCell) (warnMonth (row.map cleanCell)
      (upsertNotificationType (row.map cleanCell) (upsertLibrary (row.map cleanCell)
      (upsertPatronType (row.map cleanCell) st))))).flushes
      = (bufferPatron (row.map cleanCell) (warnMonth (row.map cleanCell)
      (upsertNotificationType (row.map cleanCell) (upsertLibrary (row.map cleanCell)
      (upsertPatronType (row.map cleanCell) st'))))).flushes := by simp [hf]
  simp only [stepRow]
  rw [he1, he2, he3, ← cbuf]
  split_ifs
  · exact ⟨hb, hg, by simp [hbad], hf⟩
  · exact ⟨hb, hg, by simp [hbad], hf⟩
  · exact ⟨by simp [hb], by simp [hg], by simp [hbad], by simp [hf]⟩
  · exact ⟨by simp [hb], by simp [hg], by simp [hbad], by simp [hf]⟩
  · exact flushBatch_sim hins cbuf cgood cbad cflush _ _
  · exact ⟨cbuf, cgood, cbad, cflush⟩

theorem runRows_sim {o o' : DbOracle}
    (he1 : o.ensurePatronTypeOk = o'.ensurePatronTypeOk)
    (he2 : o.ensureLibraryOk = o'.ensureLibraryOk)
    (he3 : o.ensureNotificationTypeOk = o'.ensureNotificationTypeOk)
    (hins : o.insertManyOk = o'.insertManyOk) :
    ∀ (rows : List (List String)) (i : Nat) {st st' : LoadState},
      st.buffer = st'.buffer → st.good = st'.good → st.bad = st'.bad →
      st.flushes = st'.flushes →
      ((runRows o i st rows).buffer = (runRows o' i st' rows).buffer ∧
       (runRows o i st rows).good = (runRows o' i st' rows).good ∧
       (runRows o i st rows).bad = (runRows o' i st' rows).bad ∧
       (runRows o i st rows).flushes = (runRows o' i st' rows).flushes) := by
  intro rows
  induction rows with
  | nil => exact fun i _ _ hb hg hbad hf => ⟨hb, hg, hbad, hf⟩
  | cons row rest ih =>
    intro i st st' hb hg hbad hf
    simp only [runRows]
    obtain ⟨b, g, d, f⟩ := stepRow_sim he1 he2 he3 hins hb hg hbad hf i row
    exact ih (i + 1) b g d f

/-- Drop failures (or any difference in the initial store) have no
effect on the processing itself: counters, reported totals and the
whole sequence of bulk-insert calls are identical. -/
theorem importExcel_drop_indep (o o' : DbOracle)
    (he1 : o.ensurePatronTypeOk = o'.ensurePatronTypeOk)
    (he2 : o.ensureLibraryOk = o'.ensureLibraryOk)
    (he3 : o.ensureNotificationTypeOk = o'.ensureNotificationTypeOk)
    (hins : o.insertManyOk = o'.insertManyOk)
    (rows : List (List String)) (s s' : Store) :
    (importExcel o rows s).good = (importExcel o' rows s').good ∧
    (importExcel o rows s).bad = (importExcel o' rows s').bad ∧
    (importExcel o rows s).totalRows = (importExcel o' rows s').totalRows ∧
    (importExcel o rows s).flushes = (importExcel o' rows s').flushes := by
  simp only [importExcel]
  obtain ⟨hb, hg, hbad, hf⟩ :=
    @runRows_sim o o' he1 he2 he3 hins (rows.drop 1) 1
      (initLoadState o s) (initLoadState o' s') rfl rfl rfl rfl
  by_cases hcond : 0 < (runRows o 1 (initLoadState o s) (rows.drop 1)).buffer.length
  · rw [if_pos hcond, if_pos (hb ▸ hcond)]
    obtain ⟨_, g2, d2, f2⟩ := flushBatch_sim hins hb hg hbad hf
      (fun n => .finalBatchFailure n) (fun n => .finalBatchFailure n)
    exact ⟨g2, d2, trivial, f2⟩
  · rw [if_neg hcond, if_neg (hb ▸ hcond)]
    exact ⟨hg, hbad, trivial, hf⟩

/-- C8 counterexample.  The claim says a drop failure for any reason
other than absence aborts the load and transitions to Failed.  In the
document-store variant a failed drop of the existing, non-empty
`patrons` collection only prints a note and the load runs to
completion: the row is processed (`good = 1`) and the new document is
inserted after the surviving stale one. -/
theorem c8_drop_failure_counterexample :
    (importExcel dropFailOracle [headerRow, rowAdult1] staleStore).log.contains
        (.dropNote "patrons") = true ∧
    (importExcel dropFailOracle [headerRow, rowAdult1] staleStore).good = 1 ∧
    (importExcel dropFailOracle [headerRow, rowAdult1] staleStore).store.patrons
      = staleStore.patrons ++ [patronA] := by decide

/-- C8 amended.  In the document-store variant every drop failure is
logged as a note and treated as a no-op (the collection keeps its
contents) and the load continues — counters, reported totals and the
bulk-insert sequence are as if the drops had succeeded.  In the
relational variant a failing script statement aborts the run, and the
reset script issues `DROP TABLE IF EXISTS` statements, so dropping a
missing table is a no-op on the store side. -/
theorem c8_schema_reset_amended :
    (∀ (o : DbOracle) (s : Store),
        (dropAll o s).1 = ⟨(if o.dropPatronsOk then [] else s.patrons),
          (if o.dropPatronTypesOk then [] else s.patronTypes),
          (if o.dropLibrariesOk then [] else s.libraries),
          (if o.dropNotificationTypesOk then [] else s.notificationTypes)⟩ ∧
        (o.dropPatronsOk = false → LogEvent.dropNote "patrons" ∈ (dropAll o s).2) ∧
        (o.dropPatronTypesOk = false →
          LogEvent.dropNote "patron_types" ∈ (dropAll o s).2) ∧
        (o.dropLibrariesOk = false → LogEvent.dropNote "libraries" ∈ (dropAll o s).2) ∧
        (o.dropNotificationTypesOk = false →
          LogEvent.dropNote "notification_types" ∈ (dropAll o s).2)) ∧
    (∀ (o o' : DbOracle) (rows : List (List String)) (s s' : Store),
        o.ensurePatronTypeOk = o'.ensurePatronTypeOk →
        o.ensureLibraryOk = o'.ensureLibraryOk →
        o.ensureNotificationTypeOk = o'.ensureNotificationTypeOk →
        o.insertManyOk = o'.insertManyOk →
        (importExcel o rows s).good = (importExcel o' rows s').good ∧
        (importExcel o rows s).bad = (importExcel o' rows s').bad ∧
        (importExcel o rows s).totalRows = (importExcel o' rows s').totalRows ∧
        (importExcel o rows s).flushes = (importExcel o' rows s').flushes) ∧
    (∀ (exec : String → Bool) (stmt : String) (rest : List String),
        stmt ≠ "" → exec stmt = false →
        execStatements exec (stmt :: rest) = .error stmt) ∧
    runScriptFile (fun _ => true) dropScript = .ok () ∧
    (splitChar ';' dropScript.data).map cleanStatement
      = ["DROP TABLE IF EXISTS patrons", "DROP TABLE IF EXISTS patron_types",
         "DROP TABLE IF EXISTS libraries", "DROP TABLE IF EXISTS notification_types",
         ""] := by
  refine ⟨fun o s => ?_,
    fun o o' rows s s' h1 h2 h3 h4 => importExcel_drop_indep o o' h1 h2 h3 h4 rows s s',
    fun exec stmt rest h1 h2 => by simp [execStatements, h1, h2],
    by rfl, by decide⟩
  unfold dropAll
  cases hp : o.dropPatronsOk <;> cases hpt : o.dropPatronTypesOk <;>
    cases hl : o.dropLibrariesOk <;> cases hnt : o.dropNotificationTypesOk <;> simp

/-- Witness for C8's amended statement on concrete inputs: a failing
patrons drop leaves the stale contents, logs the note, and does not
change the processing counters; a failing script statement aborts. -/
theorem c8_schema_reset_amended_witness :
    (dropAll dropFailOracle staleStore).1 = ⟨staleStore.patrons, [], [], []⟩ ∧
    LogEvent.dropNote "patrons" ∈ (dropAll dropFailOracle staleStore).2 ∧
    (importExcel dropFailOracle demoRows staleStore).good
      = (importExcel okOracle demoRows emptyStore).good ∧
    (importExcel dropFailOracle demoRows staleStore).bad
      = (importExcel okOracle demoRows emptyStore).bad ∧
    execStatements (fun _ => false) ["DROP TABLE patrons"]
      = .error "DROP TABLE patrons" := by
  have H := c8_schema_reset_amended
  have h1 := H.1 dropFailOracle staleStore
  have h2 := H.2.1 dropFailOracle okOracle demoRows staleStore emptyStore rfl rfl rfl rfl
  have h3 := H.2.2.1 (fun _ => false) "DROP TABLE patrons" [] (by decide) rfl
  exact ⟨by rw [h1.1]; rfl, h1.2.1 rfl, h2.1, h2.2.1, h3⟩

theorem refFold_cons (acc : List RefEntry) (p : String × String)
    (pairs : List (String × String)) :
    refFold acc (p :: pairs) = refFold (ensureRef acc p.1 p.2) pairs := rfl

theorem firstDesc_cons (c : String) (p : String × String) (rest : List (String × String)) :
    firstDesc c (p :: rest) = if p.1 = c then some p.2 else firstDesc c rest := rfl

theorem refFold_filter (c : String) :
    ∀ (pairs : List (String × String)) (acc : List RefEntry),
    (refFold acc pairs).filter (fun e => e.code == c) =
      acc.filter (fun e => e.code == c) ++
        (if acc.any (fun e => e.code == c) then []
         else ((firstDesc c pairs).map (fun d => RefEntry.mk c d)).toList) := by
  intro pairs
  induction pairs with
  | nil => intro acc; simp [refFold, firstDesc]
  | cons p rest ih =>
    intro acc
    rw [refFold_cons, ih, firstDesc_cons]
    unfold ensureRef
    by_cases hpc : p.1 = c
    · by_cases hany : acc.any (fun e => e.code == p.1)
      · rw [if_pos hany]
        have hanyc : acc.any (fun e => e.code == c) = true := by rw [← hpc]; exact hany
        rw [if_pos hanyc, if_pos hanyc]
      · rw [if_neg hany]
        have hanyc : ¬ acc.any (fun e => e.code == c) = true := by rw [← hpc]; exact hany
        have happ : (acc ++ [RefEntry.mk p.1 p.2]).any (fun e => e.code == c) = true := by
          simp [List.any_append, hpc]
        rw [if_pos happ, if_neg hanyc, if_pos hpc]
        simp [List.filter_append, hpc]
    · have hfd : (if p.1 = c then some p.2 else firstDesc c rest) = firstDesc c rest :=
        if_neg hpc
      rw [hfd]
      by_cases hany : acc.any (fun e => e.code == p.1)
      · rw [if_pos hany]
      · rw [if_neg hany]
        have hfil : (acc ++ [RefEntry.mk p.1 p.2]).filter (fun e => e.code == c)
            = acc.filter (fun e => e.code == c) := by
          simp [List.filter_append, hpc]
        have hannew : (acc ++ [RefEntry.mk p.1 p.2]).any (fun e => e.code == c)
            = acc.any (fun e => e.code == c) := by
          simp [List.any_append, hpc]
        rw [hfil, hannew]

theorem firstDesc_isSome_of_mem {c : String} :
    ∀ {pairs : List (String × String)}, c ∈ pairs.map Prod.fst →
      ∃ d, firstDesc c pairs = some d := by
  intro pairs
  induction pairs with
  | nil => simp
  | cons p rest ih =>
    intro h
    by_cases hp : p.1 = c
    · exact ⟨p.2, by simp [firstDesc, hp]⟩
    · have hmem : c ∈ rest.map Prod.fst := by
        rcases List.mem_cons.mp h with h1 | h1
        · exact absurd h1.symm hp
        · exact h1
      obtain ⟨d, hd⟩ := ih hmem
      exact ⟨d, by simp [firstDesc, hp, hd]⟩

/-- What one load guarantees about a reference set built by
insert-if-absent: exactly one entry per introduced code, carrying the
first-seen description. -/
theorem refSet_spec (pairs : List (String × String)) (c : String)
    (coll : List RefEntry) (hcoll : coll = refFold [] pairs)
    (hc : c ∈ pairs.map Prod.fst) :
    (coll.filter (fun e => e.code == c)).length = 1 ∧
    ∀ e ∈ coll, e.code = c → some e.desc = firstDesc c pairs := by
  obtain ⟨d, hd⟩ := firstDesc_isSome_of_mem hc
  have hfil : coll.filter (fun e => e.code == c) = [RefEntry.mk c d] := by
    rw [hcoll, refFold_filter c pairs []]
    simp [hd]
  refine ⟨by rw [hfil]; rfl, fun e he hcode => ?_⟩
  have hmemf : e ∈ coll.filter (fun e => e.code == c) :=
    List.mem_filter.mpr ⟨he, by simp [hcode]⟩
  rw [hfil] at hmemf
  have : e = RefEntry.mk c d := by simpa using hmemf
  rw [this, hd]

/-- While every reference upsert succeeds, each reference collection
evolves exactly by replaying insert-if-absent over the (code,
description) cells of the accepted rows, whatever else the loop does. -/
theorem runRows_refSets (o : DbOracle)
    (hpt : ∀ i, o.ensurePatronTypeOk i = true)
    (hl : ∀ i, o.ensureLibraryOk i = true)
    (hnt : ∀ i, o.ensureNotificationTypeOk i = true) :
    ∀ (rows : List (List String)) (i : Nat) (st : LoadState),
      (runRows o i st rows).store.patronTypes
        = refFold st.store.patronTypes
            ((rows.filter (fun r => !(r.length < 14))).map
              (fun r => ((r.map cleanCell).getD 0 "", (r.map cleanCell).getD 1 ""))) ∧
      (runRows o i st rows).store.libraries
        = refFold st.store.libraries
            ((rows.filter (fun r => !(r.length < 14))).map
              (fun r => ((r.map cleanCell).getD 5 "", (r.map cleanCell).getD 6 ""))) ∧
      (runRows o i st rows).store.notificationTypes
        = refFold st.store.notificationTypes
            ((rows.filter (fun r => !(r.length < 14))).map
              (fun r => ((r.map cleanCell).getD 9 "", (r.map cleanCell).getD 10 ""))) := by
  intro rows
  induction rows with
  | nil => intro i st; exact ⟨rfl, rfl, rfl⟩
  | cons row rest ih =>
    intro i st
    simp only [runRows]
    by_cases hrow : row.length < 14
    · have hstep : stepRow o i st row = rejectRow (.skipRow i row.length) st := by
        unfold stepRow
        rw [if_pos hrow]
      rw [hstep]
      have := ih (i + 1) (rejectRow (.skipRow i row.length) st)
      simpa [hrow] using this
    · have key : (stepRow o i st row).store.patronTypes
          = ensureRef st.store.patronTypes ((row.map cleanCell).getD 0 "")
              ((row.map cleanCell).getD 1 "") ∧
          (stepRow o i st row).store.libraries
          = ensureRef st.store.libraries ((row.map cleanCell).getD 5 "")
              ((row.map cleanCell).getD 6 "") ∧
          (stepRow o i st row).store.notificationTypes
          = ensureRef st.store.notificationTypes ((row.map cleanCell).getD 9 "")
              ((row.map cleanCell).getD 10 "") := by
        simp only [stepRow, if_neg hrow, hpt, hl, hnt, Bool.not_true, Bool.false_eq_true,
          if_false]
        split
        · exact ⟨by simp, by simp, by simp⟩
        · exact ⟨by simp, by simp, by simp⟩
      obtain ⟨k1, k2, k3⟩ := key
      obtain ⟨r1, r2, r3⟩ := ih (i + 1) (stepRow o i st row)
      rw [k1] at r1
      rw [k2] at r2
      rw [k3] at r3
      have hfc : List.filter (fun r => !decide (r.length < 14)) (row :: rest)
          = row :: List.filter (fun r => !decide (r.length < 14)) rest := by
        simp [hrow]
      refine ⟨?_, ?_, ?_⟩ <;> simp only [hfc, List.map_cons, refFold_cons]
      · exact r1
      · exact r2
      · exact r3

theorem dropAll_fst (o : DbOracle) (s : Store) :
    (dropAll o s).1 = ⟨(if o.dropPatronsOk then [] else s.patrons),
      (if o.dropPatronTypesOk then [] else s.patronTypes),
      (if o.dropLibrariesOk then [] else s.libraries),
      (if o.dropNotificationTypesOk then [] else s.notificationTypes)⟩ := by
  unfold dropAll
  cases hp : o.dropPatronsOk <;> cases hpt : o.dropPatronTypesOk <;>
    cases hl : o.dropLibrariesOk <;> cases hnt : o.dropNotificationTypesOk <;> simp

/-- After a full import with working reference upserts and drops, each
reference collection is the insert-if-absent replay of its column pair
over the accepted rows. -/
theorem importExcel_refSets (o : DbOracle) (rows : List (List String)) (s : Store)
    (hpt : ∀ i, o.ensurePatronTypeOk i = true)
    (hl : ∀ i, o.ensureLibraryOk i = true)
    (hnt : ∀ i, o.ensureNotificationTypeOk i = true)
    (hd2 : o.dropPatronTypesOk = true) (hd3 : o.dropLibrariesOk = true)
    (hd4 : o.dropNotificationTypesOk = true) :
    (importExcel o rows s).store.patronTypes = refFold [] (refPairs 0 1 rows) ∧
    (importExcel o rows s).store.libraries = refFold [] (refPairs 5 6 rows) ∧
    (importExcel o rows s).store.notificationTypes = refFold [] (refPairs 9 10 rows) := by
  have hinit : (initLoadState o s).store.patronTypes = [] ∧
      (initLoadState o s).store.libraries = [] ∧
      (initLoadState o s).store.notificationTypes = [] := by
    simp only [initLoadState, dropAll_fst, hd2, hd3, hd4]
    exact ⟨rfl, rfl, rfl⟩
  obtain ⟨r1, r2, r3⟩ := runRows_refSets o hpt hl hnt (rows.drop 1) 1 (initLoadState o s)
  rw [hinit.1] at r1
  rw [hinit.2.1] at r2
  rw [hinit.2.2] at r3
  simp only [importExcel]
  split
  · exact ⟨by simpa [refPairs, validRows] using r1, by simpa [refPairs, validRows] using r2,
      by simpa [refPairs, validRows] using r3⟩
  · exact ⟨by simpa [refPairs, validRows] using r1, by simpa [refPairs, validRows] using r2,
      by simpa [refPairs, validRows] using r3⟩

/-- C2.  After one load in which the store's upserts and drops work,
every reference code `c` introduced by some accepted row appears in
exactly one entity of its reference set, and that entity's
description/name is the value from the first accepted row (in input
order) that introduced `c`; this holds for patron types, libraries and
notification types alike. -/
theorem c2_reference_first_write_wins (o : DbOracle) (rows : List (List String))
    (s : Store)
    (hpt : ∀ i, o.ensurePatronTypeOk i = true)
    (hl : ∀ i, o.ensureLibraryOk i = true)
    (hnt : ∀ i, o.ensureNotificationTypeOk i = true)
    (hd2 : o.dropPatronTypesOk = true) (hd3 : o.dropLibrariesOk = true)
    (hd4 : o.dropNotificationTypesOk = true) (c : String) :
    (c ∈ (refPairs 0 1 rows).map Prod.fst →
      (((importExcel o rows s).store.patronTypes.filter
          (fun e => e.code == c)).length = 1 ∧
        ∀ e ∈ (importExcel o rows s).store.patronTypes, e.code = c →
          some e.desc = firstDesc c (refPairs 0 1 rows))) ∧
    (c ∈ (refPairs 5 6 rows).map Prod.fst →
      (((importExcel o rows s).store.libraries.filter
          (fun e => e.code == c)).length = 1 ∧
        ∀ e ∈ (importExcel o rows s).store.libraries, e.code = c →
          some e.desc = firstDesc c (refPairs 5 6 rows))) ∧
    (c ∈ (refPairs 9 10 rows).map Prod.fst →
      (((importExcel o rows s).store.notificationTypes.filter
          (fun e => e.code == c)).length = 1 ∧
        ∀ e ∈ (importExcel o rows s).store.notificationTypes, e.code = c →
          some e.desc = firstDesc c (refPairs 9 10 rows))) := by
  obtain ⟨h1, h2, h3⟩ := importExcel_refSets o rows s hpt hl hnt hd2 hd3 hd4
  exact ⟨fun hc => refSet_spec _ c _ h1 hc, fun hc => refSet_spec _ c _ h2 hc,
    fun hc => refSet_spec _ c _ h3 hc⟩

/-- Witness for C2: in the demo input two accepted rows share the
patron-type code "ADULT" with different descriptions; after the load
exactly one ADULT entity exists and it carries the first row's
description "Adult". -/
theorem c2_reference_first_write_wins_witness :
    (((importExcel okOracle demoRows emptyStore).store.patronTypes.filter
        (fun e => e.code == "ADULT")).length = 1 ∧
      ∀ e ∈ (importExcel okOracle demoRows emptyStore).store.patronTypes,
        e.code = "ADULT" → some e.desc = firstDesc "ADULT" (refPairs 0 1 demoRows)) ∧
    firstDesc "ADULT" (refPairs 0 1 demoRows) = some "Adult" := by
  have H := c2_reference_first_write_wins okOracle demoRows emptyStore
    (fun _ => rfl) (fun _ => rfl) (fun _ => rfl) rfl rfl rfl "ADULT"
  exact ⟨H.1 (by decide), by decide⟩

theorem flushedCount_append (a b : List (List Patron × Bool)) :
    flushedCount (a ++ b) = flushedCount a + flushedCount b := by
  simp [flushedCount]

theorem flushedCount_single_true (batch : List Patron) :
    flushedCount [(batch, true)] = batch.length := by
  simp [flushedCount]

theorem flushedCount_single_false (batch : List Patron) :
    flushedCount [(batch, false)] = 0 := by
  simp [flushedCount]

theorem stepRow_good_add_bad (o : DbOracle) (i : Nat) (st : LoadState)
    (row : List String) :
    (stepRow o i st row).good + (stepRow o i st row).bad = st.good + st.bad + 1 := by
  simp only [stepRow]
  split_ifs
  · simp
    omega
  · simp
    omega
  · simp
    omega
  · simp
    omega
  · rw [flushBatch_good_add_bad]
    simp
    omega
  · simp
    omega

theorem runRows_good_add_bad (o : DbOracle) :
    ∀ (rows : List (List String)) (i : Nat) (st : LoadState),
      (runRows o i st rows).good + (runRows o i st rows).bad
        = st.good + st.bad + (rows.length : Int) := by
  intro rows
  induction rows with
  | nil => intro i st; simp [runRows]
  | cons row rest ih =>
    intro i st
    simp only [runRows]
    rw [ih (i + 1) (stepRow o i st row), stepRow_good_add_bad]
    simp only [List.length_cons]
    push_cast
    ring

theorem flushBatch_goodInv (o : DbOracle) (ev : Nat → LogEvent) {st : LoadState}
    (h : st.good = ((flushedGood st + st.buffer.length : Nat) : Int)) :
    (flushBatch o ev st).good
      = ((flushedGood (flushBatch o ev st) + (flushBatch o ev st).buffer.length : Nat) : Int) := by
  unfold flushedGood at h
  unfold flushBatch
  split_ifs
  · show st.good = ((flushedCount (st.flushes ++ [(st.buffer, true)]) + ([] : List Patron).length : Nat) : Int)
    rw [flushedCount_append, flushedCount_single_true]
    simp only [List.length_nil, Nat.add_zero]
    push_cast at h ⊢
    omega
  · show st.good - (st.buffer.length : Int)
        = ((flushedCount (st.flushes ++ [(st.buffer, false)]) + ([] : List Patron).length : Nat) : Int)
    rw [flushedCount_append, flushedCount_single_false]
    simp only [List.length_nil, Nat.add_zero]
    push_cast at h ⊢
    omega

theorem stepRow_goodInv (o : DbOracle) (i : Nat) (row : List String) {st : LoadState}
    (h : st.good = ((flushedGood st + st.buffer.length : Nat) : Int)) :
    (stepRow o i st row).good
      = ((flushedGood (stepRow o i st row)
          + (stepRow o i st row).buffer.length : Nat) : Int) := by
  have hstep : ∀ r : List String,
      (bufferPatron r (warnMonth r (upsertNotificationType r (upsertLibrary r
        (upsertPatronType r st))))).good
      = ((flushedGood (bufferPatron r (warnMonth r (upsertNotificationType r
          (upsertLibrary r (upsertPatronType r st)))))
        + (bufferPatron r (warnMonth r (upsertNotificationType r (upsertLibrary r
          (upsertPatronType r st))))).buffer.length : Nat) : Int) := by
    intro r
    unfold flushedGood at h ⊢
    simp only [bufferPatron_good, bufferPatron_buffer, bufferPatron_flushes,
      warnMonth_good, warnMonth_buffer, warnMonth_flushes,
      upsertNotificationType_good, upsertNotificationType_buffer,
      upsertNotificationType_flushes, upsertLibrary_good, upsertLibrary_buffer,
      upsertLibrary_flushes, upsertPatronType_good, upsertPatronType_buffer,
      upsertPatronType_flushes, List.length_append, List.length_cons, List.length_nil]
    push_cast at h ⊢
    omega
  simp only [stepRow]
  split_ifs
  · unfold flushedGood at h ⊢
    simpa using h
  · unfold flushedGood at h ⊢
    simpa using h
  · unfold flushedGood at h ⊢
    simpa using h
  · unfold flushedGood at h ⊢
    simpa using h
  · exact flushBatch_goodInv o _ (hstep _)
  · exact hstep _

theorem runRows_goodInv (o : DbOracle) :
    ∀ (rows : List (List String)) (i : Nat) {st : LoadState},
      st.good = ((flushedGood st + st.buffer.length : Nat) : Int) →
      (runRows o i st rows).good
        = ((flushedGood (runRows o i st rows)
            + (runRows o i st rows).buffer.length : Nat) : Int) := by
  intro rows
  induction rows with
  | nil => intro i st h; exact h
  | cons row rest ih =>
    intro i st h
    simp only [runRows]
    exact ih (i + 1) (stepRow_goodInv o i row h)

theorem flushBatch_bad_mono (o : DbOracle) (ev : Nat → LogEvent) (st : LoadState) :
    st.bad ≤ (flushBatch o ev st).bad := by
  unfold flushBatch
  split_ifs
  · exact le_refl _
  · show st.bad ≤ st.bad + (st.buffer.length : Int)
    omega

theorem stepRow_bad_mono (o : DbOracle) (i : Nat) (st : LoadState) (row : List String) :
    st.bad ≤ (stepRow o i st row).bad := by
  simp only [stepRow]
  split_ifs
  · simp only [rejectRow_bad]
    omega
  · simp only [rejectRow_bad]
    omega
  · simp only [rejectRow_bad, upsertPatronType_bad]
    omega
  · simp only [rejectRow_bad, upsertLibrary_bad, upsertPatronType_bad]
    omega
  · refine le_trans (le_of_eq ?_) (flushBatch_bad_mono o _ _)
    simp
  · simp

theorem runRows_bad_mono (o : DbOracle) :
    ∀ (rows : List (List String)) (i : Nat) (st : LoadState),
      st.bad ≤ (runRows o i st rows).bad := by
  intro rows
  induction rows with
  | nil => intro i st; simp [runRows]
  | cons row rest ih =>
    intro i st
    simp only [runRows]
    exact le_trans (stepRow_bad_mono o i st row) (ih (i + 1) (stepRow o i st row))

/-- C10.  At every point of the import loop the two counters are
non-negative and sum to the number of data rows processed so far; the
end-of-load summary has `good + bad` equal to the number of data rows,
the reported total equals the sheet's row count minus one (so a sheet
with no rows at all reports `-1`), and for a sheet with at least the
header row the counters sum to the reported total. -/
theorem c10_counter_invariant (o : DbOracle) (rows : List (List String)) (s : Store) :
    (∀ n : Nat,
      0 ≤ (runRows o 1 (initLoadState o s) ((rows.drop 1).take n)).good ∧
      0 ≤ (runRows o 1 (initLoadState o s) ((rows.drop 1).take n)).bad ∧
      (runRows o 1 (initLoadState o s) ((rows.drop 1).take n)).good
        + (runRows o 1 (initLoadState o s) ((rows.drop 1).take n)).bad
        = (((rows.drop 1).take n).length : Int)) ∧
    0 ≤ (importExcel o rows s).good ∧
    0 ≤ (importExcel o rows s).bad ∧
    (importExcel o rows s).good + (importExcel o rows s).bad
      = ((rows.drop 1).length : Int) ∧
    (importExcel o rows s).totalRows = (rows.length : Int) - 1 ∧
    (rows ≠ [] → (importExcel o rows s).good + (importExcel o rows s).bad
      = (importExcel o rows s).totalRows) ∧
    (rows = [] → (importExcel o rows s).totalRows = -1) := by
  have hinit : (initLoadState o s).good
      = ((flushedGood (initLoadState o s) + (initLoadState o s).buffer.length : Nat) : Int) := by
    simp [initLoadState, flushedGood, flushedCount]
  have hinitg : (initLoadState o s).good = 0 := rfl
  have hinitb : (initLoadState o s).bad = 0 := rfl
  have hpre : ∀ n : Nat,
      0 ≤ (runRows o 1 (initLoadState o s) ((rows.drop 1).take n)).good ∧
      0 ≤ (runRows o 1 (initLoadState o s) ((rows.drop 1).take n)).bad ∧
      (runRows o 1 (initLoadState o s) ((rows.drop 1).take n)).good
        + (runRows o 1 (initLoadState o s) ((rows.drop 1).take n)).bad
        = (((rows.drop 1).take n).length : Int) := by
    intro n
    refine ⟨?_, ?_, ?_⟩
    · rw [runRows_goodInv o _ 1 hinit]
      exact Int.natCast_nonneg _
    · calc (0 : Int) = (initLoadState o s).bad := hinitb.symm
        _ ≤ _ := runRows_bad_mono o _ 1 (initLoadState o s)
    · rw [runRows_good_add_bad o _ 1 (initLoadState o s), hinitg, hinitb]
      ring
  have hsum : (importExcel o rows s).good + (importExcel o rows s).bad
      = ((rows.drop 1).length : Int) := by
    simp only [importExcel]
    split
    · rw [flushBatch_good_add_bad, runRows_good_add_bad o _ 1 (initLoadState o s),
        hinitg, hinitb]
      ring
    · rw [runRows_good_add_bad o _ 1 (initLoadState o s), hinitg, hinitb]
      ring
  have hgood : 0 ≤ (importExcel o rows s).good := by
    simp only [importExcel]
    split
    · rw [flushBatch_goodInv o _ (runRows_goodInv o _ 1 hinit)]
      exact Int.natCast_nonneg _
    · rw [runRows_goodInv o _ 1 hinit]
      exact Int.natCast_nonneg _
  have hbad : 0 ≤ (importExcel o rows s).bad := by
    have hrun : (0 : Int) ≤ (runRows o 1 (initLoadState o s) (rows.drop 1)).bad := by
      calc (0 : Int) = (initLoadState o s).bad := hinitb.symm
        _ ≤ _ := runRows_bad_mono o _ 1 (initLoadState o s)
    simp only [importExcel]
    split
    · exact le_trans hrun (flushBatch_bad_mono o _ _)
    · exact hrun
  have htot : (importExcel o rows s).totalRows = (rows.length : Int) - 1 := by
    simp only [importExcel]
  refine ⟨hpre, hgood, hbad, hsum, htot, fun hne => ?_, fun he => ?_⟩
  · rw [hsum, htot]
    have : 1 ≤ rows.length := List.length_pos.mpr hne
    rw [List.length_drop]
    push_cast [Nat.cast_sub this]
    ring
  · subst he
    rfl

/-- Witness for C10 on the demo input: 3 data rows, 2 successes, 1
failure, and a reported total of 3; the empty sheet reports -1. -/
theorem c10_counter_invariant_witness :
    (0 ≤ (runRows okOracle 1 (initLoadState okOracle emptyStore)
        ((demoRows.drop 1).take 2)).good ∧
      0 ≤ (runRows okOracle 1 (initLoadState okOracle emptyStore)
        ((demoRows.drop 1).take 2)).bad ∧
      (runRows okOracle 1 (initLoadState okOracle emptyStore)
          ((demoRows.drop 1).take 2)).good
        + (runRows okOracle 1 (initLoadState okOracle emptyStore)
          ((demoRows.drop 1).take 2)).bad
        = (((demoRows.drop 1).take 2).length : Int)) ∧
    (importExcel okOracle demoRows emptyStore).good
        + (importExcel okOracle demoRows emptyStore).bad
      = (importExcel okOracle demoRows emptyStore).totalRows ∧
    (importExcel okOracle ([] : List (List String)) emptyStore).totalRows = -1 := by
  have H := c10_counter_invariant okOracle demoRows emptyStore
  have H0 := c10_counter_invariant okOracle ([] : List (List String)) emptyStore
  exact ⟨H.1 2, H.2.2.2.2.2.1 (by decide), H0.2.2.2.2.2.2 rfl⟩

theorem flushBatch_patrons_mono (o : DbOracle) (ev : Nat → LogEvent) (st : LoadState)
    {p : Patron} (h : p ∈ st.store.patrons) : p ∈ (flushBatch o ev st).store.patrons := by
  unfold flushBatch
  split_ifs
  · show p ∈ st.store.patrons ++ st.buffer
    exact List.mem_append_left _ h
  · exact h

theorem stepRow_patrons_mono (o : DbOracle) (i : Nat) (st : LoadState)
    (row : List String) {p : Patron} (h : p ∈ st.store.patrons) :
    p ∈ (stepRow o i st row).store.patrons := by
  simp only [stepRow]
  split_ifs
  · simpa using h
  · simpa using h
  · simpa using h
  · simpa using h
  · apply flushBatch_patrons_mono
    simpa using h
  · simpa using h

theorem runRows_patrons_mono (o : DbOracle) :
    ∀ (rows : List (List String)) (i : Nat) (st : LoadState) {p : Patron},
      p ∈ st.store.patrons → p ∈ (runRows o i st rows).store.patrons := by
  intro rows
  induction rows with
  | nil => intro i st p h; exact h
  | cons row rest ih =>
    intro i st p h
    simp only [runRows]
    exact ih (i + 1) _ (stepRow_patrons_mono o i st row h)

theorem flushBatch_flushesOk (o : DbOracle) (ev : Nat → LogEvent) {st : LoadState}
    (h : FlushesOk o st) : FlushesOk o (flushBatch o ev st) := by
  unfold flushBatch
  split_ifs with hins
  · intro j f hf
    show f.2 = o.insertManyOk j
    replace hf : (st.flushes ++ [(st.buffer, true)])[j]? = some f := hf
    by_cases hlt : j < st.flushes.length
    · rw [List.getElem?_append_left hlt] at hf
      exact h j f hf
    · rw [List.getElem?_append_right (Nat.le_of_not_lt hlt)] at hf
      rcases hk : j - st.flushes.length with _ | k
      · rw [hk] at hf
        simp only [List.getElem?_cons_zero, Option.some.injEq] at hf
        have hjlen : j = st.flushes.length := by omega
        rw [← hf, hjlen, hins]
      · rw [hk] at hf
        simp at hf
  · intro j f hf
    show f.2 = o.insertManyOk j
    replace hf : (st.flushes ++ [(st.buffer, false)])[j]? = some f := hf
    by_cases hlt : j < st.flushes.length
    · rw [List.getElem?_append_left hlt] at hf
      exact h j f hf
    · rw [List.getElem?_append_right (Nat.le_of_not_lt hlt)] at hf
      rcases hk : j - st.flushes.length with _ | k
      · rw [hk] at hf
        simp only [List.getElem?_cons_zero, Option.some.injEq] at hf
        have hjlen : j = st.flushes.length := by omega
        rw [← hf, hjlen]
        exact (Bool.not_eq_true _).mp hins |>.symm
      · rw [hk] at hf
        simp at hf

theorem flushesOk_of_eq {o : DbOracle} {st st' : LoadState}
    (hf : st'.flushes = st.flushes) (h : FlushesOk o st) : FlushesOk o st' := by
  intro j f hj
  apply h j f
  rw [← hf]
  exact hj

theorem stepRow_flushesOk (o : DbOracle) (i : Nat) (row : List String) {st : LoadState}
    (h : FlushesOk o st) : FlushesOk o (stepRow o i st row) := by
  simp only [stepRow]
  split_ifs
  · exact flushesOk_of_eq (by simp) h
  · exact flushesOk_of_eq (by simp) h
  · exact flushesOk_of_eq (by simp) h
  · exact flushesOk_of_eq (by simp) h
  · exact flushBatch_flushesOk o _ (flushesOk_of_eq (by simp) h)
  · exact flushesOk_of_eq (by simp) h

theorem runRows_flushesOk (o : DbOracle) :
    ∀ (rows : List (List String)) (i : Nat) {st : LoadState},
      FlushesOk o st → FlushesOk o (runRows o i st rows) := by
  intro rows
  induction rows with
  | nil => intro i st h; exact h
  | cons row rest ih =>
    intro i st h
    simp only [runRows]
    exact ih (i + 1) (stepRow_flushesOk o i row h)

theorem storeFrom_of_eq {base : List Patron} {st st' : LoadState}
    (hp : st'.store.patrons = st.store.patrons) (hf : st'.flushes = st.flushes)
    (h : StoreFromFlushes base st) : StoreFromFlushes base st' := by
  unfold StoreFromFlushes at h ⊢
  rw [hp, hf]
  exact h

theorem flushBatch_storeFrom (o : DbOracle) (ev : Nat → LogEvent) {base : List Patron}
    {st : LoadState} (h : StoreFromFlushes base st) :
    StoreFromFlushes base (flushBatch o ev st) := by
  unfold StoreFromFlushes at h ⊢
  unfold flushBatch
  split_ifs
  · show st.store.patrons ++ st.buffer
        = base ++ (((st.flushes ++ [(st.buffer, true)]).filter
            (fun f => f.2)).map (fun f => f.1)).flatten
    rw [h]
    simp [List.filter_append]
  · show st.store.patrons
        = base ++ (((st.flushes ++ [(st.buffer, false)]).filter
            (fun f => f.2)).map (fun f => f.1)).flatten
    rw [h]
    simp [List.filter_append]

theorem stepRow_storeFrom (o : DbOracle) (i : Nat) (row : List String)
    {base : List Patron} {st : LoadState} (h : StoreFromFlushes base st) :
    StoreFromFlushes base (stepRow o i st row) := by
  simp only [stepRow]
  split_ifs
  · exact storeFrom_of_eq (by simp) (by simp) h
  · exact storeFrom_of_eq (by simp) (by simp) h
  · exact storeFrom_of_eq (by simp) (by simp) h
  · exact storeFrom_of_eq (by simp) (by simp) h
  · exact flushBatch_storeFrom o _ (storeFrom_of_eq (by simp) (by simp) h)
  · exact storeFrom_of_eq (by simp) (by simp) h

theorem runRows_storeFrom (o : DbOracle) :
    ∀ (rows : List (List String)) (i : Nat) {base : List Patron} {st : LoadState},
      StoreFromFlushes base st → StoreFromFlushes base (runRows o i st rows) := by
  intro rows
  induction rows with
  | nil => intro i base st h; exact h
  | cons row rest ih =>
    intro i base st h
    simp only [runRows]
    exact ih (i + 1) (stepRow_storeFrom o i row h)

/-- Every recorded bulk insert of a finished import carries the store's
answer for its call index. -/
theorem importExcel_flushes_consistent (o : DbOracle) (rows : List (List String))
    (s : Store) :
    ∀ (j : Nat) (f : List Patron × Bool),
      (importExcel o rows s).flushes[j]? = some f → f.2 = o.insertManyOk j := by
  have h0 : FlushesOk o (initLoadState o s) := by
    intro j f hf
    simp [initLoadState] at hf
  have h1 := runRows_flushesOk o (rows.drop 1) 1 h0
  simp only [importExcel]
  split
  · exact flushBatch_flushesOk o _ h1
  · exact h1

/-- The patrons collection of a finished import is the surviving
pre-drop contents followed by the successful batches, in order. -/
theorem importExcel_store_spec (o : DbOracle) (rows : List (List String)) (s : Store) :
    (importExcel o rows s).store.patrons
      = (dropAll o s).1.patrons
        ++ (((importExcel o rows s).flushes.filter (fun f => f.2)).map
            (fun f => f.1)).flatten := by
  have h0 : StoreFromFlushes (dropAll o s).1.patrons (initLoadState o s) := by
    unfold StoreFromFlushes
    simp [initLoadState]
  have h1 := runRows_storeFrom o (rows.drop 1) 1 h0
  simp only [importExcel]
  split
  · exact flushBatch_storeFrom o _ h1
  · exact h1

theorem flushBatch_sched {o o' : DbOracle} {st st' : LoadState}
    (hb : st.buffer = st'.buffer)
    (hm : st.flushes.map Prod.fst = st'.flushes.map Prod.fst)
    (ev ev' : Nat → LogEvent) :
    (flushBatch o ev st).buffer = (flushBatch o' ev' st').buffer ∧
    (flushBatch o ev st).flushes.map Prod.fst
      = (flushBatch o' ev' st').flushes.map Prod.fst := by
  unfold flushBatch
  split_ifs <;> exact ⟨rfl, by simp [hb, hm]⟩

theorem stepRow_sched {o o' : DbOracle}
    (he1 : o.ensurePatronTypeOk = o'.ensurePatronTypeOk)
    (he2 : o.ensureLibraryOk = o'.ensureLibraryOk)
    (he3 : o.ensureNotificationTypeOk = o'.ensureNotificationTypeOk)
    {st st' : LoadState} (hb : st.buffer = st'.buffer)
    (hm : st.flushes.map Prod.fst = st'.flushes.map Prod.fst)
    (i : Nat) (row : List String) :
    (stepRow o i st row).buffer = (stepRow o' i st' row).buffer ∧
    (stepRow o i st row).flushes.map Prod.fst
      = (stepRow o' i st' row).flushes.map Prod.fst := by
  have cbuf : (bufferPatron (row.map cleanCell) (warnMonth (row.map cleanCell)
      (upsertNotificationType (row.map cleanCell) (upsertLibrary (row.map cleanCell)
      (upsertPatronType (row.map cleanCell) st))))).buffer
      = (bufferPatron (row.map cleanCell) (warnMonth (row.map cleanCell)
      (upsertNotificationType (row.map cleanCell) (upsertLibrary (row.map cleanCell)
      (upsertPatronType (row.map cleanCell) st'))))).buffer := by simp [hb]
  have cm : (bufferPatron (row.map cleanCell) (warnMonth (row.map cleanCell)
      (upsertNotificationType (row.map cleanCell) (upsertLibrary (row.map cleanCell)
      (upsertPatronType (row.map cleanCell) st))))).flushes.map Prod.fst
      = (bufferPatron (row.map cleanCell) (warnMonth (row.map cleanCell)
      (upsertNotificationType (row.map cleanCell) (upsertLibrary (row.map cleanCell)
      (upsertPatronType (row.map cleanCell) st'))))).flushes.map Prod.fst := by
    simp [hm]
  simp only [stepRow]
  rw [he1, he2, he3, ← cbuf]
  split_ifs
  · exact ⟨hb, by simp [hm]⟩
  · exact ⟨hb, by simp [hm]⟩
  · exact ⟨by simp [hb], by simp [hm]⟩
  · exact ⟨by simp [hb], by simp [hm]⟩
  · exact flushBatch_sched cbuf cm _ _
  · exact ⟨cbuf, cm⟩

theorem runRows_sched {o o' : DbOracle}
    (he1 : o.ensurePatronTypeOk = o'.ensurePatronTypeOk)
    (he2 : o.ensureLibraryOk = o'.ensureLibraryOk)
    (he3 : o.ensureNotificationTypeOk = o'.ensureNotificationTypeOk) :
    ∀ (rows : List (List String)) (i : Nat) {st st' : LoadState},
      st.buffer = st'.buffer →
      st.flushes.map Prod.fst = st'.flushes.map Prod.fst →
      ((runRows o i st rows).buffer = (runRows o' i st' rows).buffer ∧
       (runRows o i st rows).flushes.map Prod.fst
         = (runRows o' i st' rows).flushes.map Prod.fst) := by
  intro rows
  induction rows with
  | nil => intro i st st' hb hm; exact ⟨hb, hm⟩
  | cons row rest ih =>
    intro i st st' hb hm
    simp only [runRows]
    obtain ⟨b, m⟩ := stepRow_sched he1 he2 he3 hb hm i row
    exact ih (i + 1) b m

/-- The sequence of batches handed to the bulk-insert call does not
depend on the insert outcomes (nor on the initial store): after a batch
fails, the next batch is still attempted, with the same contents. -/
theorem importExcel_sched (o o' : DbOracle)
    (he1 : o.ensurePatronTypeOk = o'.ensurePatronTypeOk)
    (he2 : o.ensureLibraryOk = o'.ensureLibraryOk)
    (he3 : o.ensureNotificationTypeOk = o'.ensureNotificationTypeOk)
    (rows : List (List String)) (s s' : Store) :
    (importExcel o rows s).flushes.map Prod.fst
      = (importExcel o' rows s').flushes.map Prod.fst := by
  obtain ⟨hb, hm⟩ := @runRows_sched o o' he1 he2 he3 (rows.drop 1) 1
    (initLoadState o s) (initLoadState o' s') rfl rfl
  simp only [importExcel]
  by_cases hcond : 0 < (runRows o 1 (initLoadState o s) (rows.drop 1)).buffer.length
  · rw [if_pos hcond, if_pos (hb ▸ hcond)]
    exact (flushBatch_sched hb hm _ _).2
  · rw [if_neg hcond, if_neg (hb ▸ hcond)]
    exact hm

/-- C4.  Batch-failure isolation: a failed bulk insert counts its whole
batch as failed (added to `bad`, subtracted from `good`), leaves the
collection untouched and clears the buffer; the batch schedule is the
same as under an always-succeeding store, so the next batch is still
attempted with the same contents; and every batch whose insert the
store accepts ends up in the final collection. -/
theorem c4_batch_failure_isolation (o : DbOracle) (rows : List (List String))
    (s : Store) :
    (∀ (ev : Nat → LogEvent) (st : LoadState),
        o.insertManyOk st.flushes.length = false →
          (flushBatch o ev st).bad = st.bad + st.buffer.length ∧
          (flushBatch o ev st).good = st.good - st.buffer.length ∧
          (flushBatch o ev st).store.patrons = st.store.patrons ∧
          (flushBatch o ev st).buffer = []) ∧
    ((importExcel o rows s).flushes.map Prod.fst
      = (importExcel { o with insertManyOk := fun _ => true } rows s).flushes.map
          Prod.fst) ∧
    (∀ (k : Nat) (batch : List Patron) (b : Bool),
        (importExcel o rows s).flushes[k]? = some (batch, b) →
        o.insertManyOk k = true →
        ∀ p ∈ batch, p ∈ (importExcel o rows s).store.patrons) := by
  refine ⟨fun ev st hfail => ?_, ?_, fun k batch b hk hok p hp => ?_⟩
  · rw [flushBatch_of_fail ev st hfail]
    exact ⟨rfl, rfl, rfl, rfl⟩
  · exact importExcel_sched o { o with insertManyOk := fun _ => true } rfl rfl rfl rows s s
  · have hcons := importExcel_flushes_consistent o rows s k (batch, b) hk
    have hbt : ((batch, b) : List Patron × Bool) = (batch, true) := by
      rw [show b = true from hcons.trans hok]
    have hmem : ((batch, true) : List Patron × Bool)
        ∈ (importExcel o rows s).flushes := by
      rw [← hbt]
      exact List.getElem?_mem hk
    have hmemf : ((batch, true) : List Patron × Bool)
        ∈ (importExcel o rows s).flushes.filter (fun f => f.2) :=
      List.mem_filter.mpr ⟨hmem, rfl⟩
    have hmemm : batch
        ∈ ((importExcel o rows s).flushes.filter (fun f => f.2)).map (fun f => f.1) :=
      List.mem_map.mpr ⟨(batch, true), hmemf, rfl⟩
    rw [importExcel_store_spec o rows s]
    exact List.mem_append_right _ (List.mem_flatten_of_mem hmemm hp)

/-- Witness for C4: a store accepting only the first bulk insert.  The
single-row import's one batch is accepted and its record is in the
collection, and a second flush from a mid-import state counts its whole
batch as failed and leaves the collection alone. -/
theorem c4_batch_failure_isolation_witness :
    ((flushBatch c4Oracle (fun n => .finalBatchFailure n) c4State).bad
        = c4State.bad + c4State.buffer.length ∧
      (flushBatch c4Oracle (fun n => .finalBatchFailure n) c4State).good
        = c4State.good - c4State.buffer.length ∧
      (flushBatch c4Oracle (fun n => .finalBatchFailure n) c4State).store.patrons
        = c4State.store.patrons ∧
      (flushBatch c4Oracle (fun n => .finalBatchFailure n) c4State).buffer = []) ∧
    patronA ∈ (importExcel c4Oracle [headerRow, rowAdult1] emptyStore).store.patrons := by
  have H := c4_batch_failure_isolation c4Oracle [headerRow, rowAdult1] emptyStore
  refine ⟨H.1 _ c4State (by decide), ?_⟩
  exact H.2.2 0 [patronA] true (by decide) (by decide) patronA (by decide)

end SFILS
